import Mathlib

set_option maxRecDepth 4000

/- Shallow embedding of the NGSI-LD synchronization and client layer of the
Lego-Dashboard repository: the broker client operations, the discovery and
entity-import endpoints, the resync endpoint, and the template engine.
JavaScript strings are Lean `String`s, JSON values are the inductive `JsonVal`,
JavaScript numbers are modelled as exact decimals, and HTTP traffic is
modelled by explicit request/response values. -/

namespace LegoDashboard

/-- JavaScript string-typed `s || d`: the empty string is the only falsy string. -/
def jsStrOr (s d : String) : String := if s = "" then d else s

/-- Characters after the last occurrence of `sep`; the whole list when `sep`
does not occur. This is the value of `s.split(sep).pop()` seen as a character
list (for a string ending in `sep` the popped component is empty). -/
def afterLastSep (sep : Char) : List Char → List Char
  | [] => []
  | c :: rest =>
    if c == sep || rest.contains sep then afterLastSep sep rest else c :: rest

/-- JavaScript `s.split(sep).pop() || s`, the idiom used for type and id
shortening in `importEntitiesEndpoint` and `resyncEntityEndpoint`. -/
def jsSplitPopOr (sep : Char) (s : String) : String :=
  jsStrOr (String.mk (afterLastSep sep s.data)) s

/-- Type normalization from `importEntitiesEndpoint` (syncEntities.ts lines
148-151) and `resyncEntityEndpoint`: when the type contains a slash, replace
it by `type.split('/').pop() || type`. -/
def normalizeType (t : String) : String :=
  if t.data.contains '/' then jsSplitPopOr '/' t else t

/-- The shortening the specification describes: the substring after the last
slash, the string itself when it has no slash. Stated for comparison with
`normalizeType`. -/
def substringAfterLastSlash (t : String) : String :=
  String.mk (afterLastSep '/' t.data)

/-- A JavaScript number modelled as the exact decimal
`mantissa / 10 ^ exp10`. Every numeric value the source and specification
examples exercise is such a decimal. -/
structure JsNumber where
  mantissa : Int
  exp10 : Nat
deriving DecidableEq

/-- `Number.isInteger`: the decimal denominator divides the mantissa. -/
def JsNumber.isInteger (d : JsNumber) : Bool :=
  d.mantissa % ((10 : Int) ^ d.exp10) = 0

/-- The integral value of an integer-valued number (exact division). -/
def JsNumber.intValue (d : JsNumber) : Int :=
  d.mantissa / (10 : Int) ^ d.exp10

/-- JavaScript `value.toFixed(2)`: round half away from zero to two fraction
digits. -/
def JsNumber.toFixed2 (d : JsNumber) : String :=
  let p : Nat := 10 ^ d.exp10
  let scaled : Nat := (200 * d.mantissa.natAbs + p) / (2 * p)
  (if d.mantissa < 0 then "-" else "") ++ toString (scaled / 100) ++ "." ++
    (if scaled % 100 < 10 then "0" ++ toString (scaled % 100)
     else toString (scaled % 100))

/-- JSON values as they travel between the dashboard and the broker. -/
inductive JsonVal : Type where
  | null : JsonVal
  | bool (b : Bool) : JsonVal
  | num (n : JsNumber) : JsonVal
  | str (s : String) : JsonVal
  | arr (elems : List JsonVal) : JsonVal
  | obj (fields : List (String × JsonVal)) : JsonVal

/-- JavaScript truthiness of a possibly-undefined value (`none` is
`undefined`). -/
def jsTruthy : Option JsonVal → Bool
  | none => false
  | some JsonVal.null => false
  | some (JsonVal.bool b) => b
  | some (JsonVal.num n) => if n.mantissa = 0 then false else true
  | some (JsonVal.str s) => if s = "" then false else true
  | some (JsonVal.arr _) => true
  | some (JsonVal.obj _) => true

/-- Quote/backslash escaping of a JSON string literal (control-character
escapes are not modelled; no verified statement exercises them). -/
def jsonEscape (s : String) : String :=
  String.mk (s.data.flatMap (fun c =>
    if c = '"' then ['\\', '"'] else if c = '\\' then ['\\', '\\'] else [c]))

/-- Rendering of a JSON number. Integral values print as integers, matching
JavaScript; non-integral values print with two fixed decimals, a
simplification no verified statement relies on. -/
def jsonNumRepr (n : JsNumber) : String :=
  if n.isInteger then toString n.intValue else n.toFixed2

mutual

/-- `JSON.stringify` on the modelled JSON values. -/
def jstringify : JsonVal → String
  | JsonVal.null => "null"
  | JsonVal.bool b => if b then "true" else "false"
  | JsonVal.num n => jsonNumRepr n
  | JsonVal.str s => "\"" ++ jsonEscape s ++ "\""
  | JsonVal.arr es => "[" ++ jstringifyList es ++ "]"
  | JsonVal.obj fs => "\x7b" ++ jstringifyFields fs ++ "\x7d"

/-- Comma-joined stringification of an array's elements. -/
def jstringifyList : List JsonVal → String
  | [] => ""
  | [v] => jstringify v
  | v :: rest => jstringify v ++ "," ++ jstringifyList rest

/-- Comma-joined stringification of an object's key/value pairs. -/
def jstringifyFields : List (String × JsonVal) → String
  | [] => ""
  | [(k, v)] => "\"" ++ jsonEscape k ++ "\":" ++ jstringify v
  | (k, v) :: rest =>
    "\"" ++ jsonEscape k ++ "\":" ++ jstringify v ++ "," ++ jstringifyFields rest

end

/-- Splitting a character list at every occurrence of `sep`, keeping empty
components, as JavaScript `s.split(sep)` does. -/
def splitOnChar (sep : Char) : List Char → List (List Char)
  | [] => [[]]
  | c :: rest =>
    match splitOnChar sep rest with
    | [] => [[]]
    | h :: t => if c == sep then [] :: h :: t else (c :: h) :: t

/-- JavaScript `path.split('.')`. -/
def jsSplitDot (s : String) : List String :=
  (splitOnChar '.' s.data).map String.mk

/-- JavaScript `s.trim()`: drop leading and trailing whitespace. -/
def jsTrim (s : String) : String :=
  String.mk (((s.data.dropWhile Char.isWhitespace).reverse.dropWhile
    Char.isWhitespace).reverse)

end LegoDashboard

namespace LegoDashboard.MapboxLayerManager

open LegoDashboard

/-- `MapboxLayerManager.formatValue` (MapboxLayerManager.ts lines 266-277):
null/undefined print as a hyphen, objects as their JSON text, integers as-is,
non-integral numbers with two fixed decimals, everything else through
`String(value)`. -/
def formatValue (v : Option JsonVal) : String :=
  match v with
  | none => "-"
  | some JsonVal.null => "-"
  | some (JsonVal.obj fs) => jstringify (JsonVal.obj fs)
  | some (JsonVal.arr es) => jstringify (JsonVal.arr es)
  | some (JsonVal.num n) => if n.isInteger then toString n.intValue else n.toFixed2
  | some (JsonVal.bool b) => if b then "true" else "false"
  | some (JsonVal.str s) => s

/-- `MapboxLayerManager.getNestedValue` (lines 254-261): a dot-separated walk
that continues only through truthy objects and otherwise yields `undefined`
(`none`). Array steps follow JavaScript's string indexing of arrays. -/
def getNestedValue (root : JsonVal) (path : String) : Option JsonVal :=
  (jsSplitDot path).foldl
    (fun current key =>
      match current with
      | some (JsonVal.obj fields) => fields.lookup key
      | some (JsonVal.arr elems) =>
        match key.toNat? with
        | some i => elems.get? i
        | none => none
      | _ => none)
    (some root)

/-- One attempted match of the template placeholder pattern (two opening
braces, one or more non-closing-brace characters, two closing braces) at the
head of the character list; on success, the inner characters and the remainder
of the list. -/
def matchPlaceholder (cs : List Char) : Option (List Char × List Char) :=
  match cs with
  | '{' :: '{' :: rest =>
    let inner := rest.takeWhile (fun ch => !(ch == '}'))
    match rest.drop inner.length with
    | '}' :: '}' :: tail => if inner.isEmpty then none else some (inner, tail)
    | _ => none
  | _ => none

/-- The scan of `MapboxLayerManager.parseTemplate` (lines 244-249): each
placeholder match is replaced by the formatted value of the trimmed path
resolved against the properties object; elsewhere the scan advances one
character, as the global regex replace does. The fuel argument only bounds
the recursion: every step consumes at least one character, so starting the
scan with the character count as fuel never reaches the zero case. -/
def parseTemplateStep (props : JsonVal) (go : List Char → List Char)
    (cs : List Char) : List Char :=
  match matchPlaceholder cs with
  | some (inner, tail) =>
    (formatValue (getNestedValue props (jsTrim (String.mk inner)))).data ++ go tail
  | none =>
    match cs with
    | [] => []
    | c :: rest => c :: go rest

/-- The scan itself, recursing through `parseTemplateStep` on the fuel. -/
def parseTemplateAux (props : JsonVal) : Nat → List Char → List Char
  | 0, _ => []
  | fuel + 1, cs => parseTemplateStep props (parseTemplateAux props fuel) cs

/-- `MapboxLayerManager.parseTemplate`. -/
def parseTemplate (template : String) (props : JsonVal) : String :=
  String.mk (parseTemplateAux props template.data.length template.data)

end LegoDashboard.MapboxLayerManager

namespace LegoDashboard.NgsiCard

open LegoDashboard

/-- `formatValue` of the NgsiCard block component (config.ts lines 333-353):
null/undefined print as an em-dash, booleans as Yes/No, integers as-is,
non-integral numbers with two fixed decimals, objects as their JSON text. -/
def formatValue (v : Option JsonVal) : String :=
  match v with
  | none => "—"
  | some JsonVal.null => "—"
  | some (JsonVal.bool b) => if b then "Yes" else "No"
  | some (JsonVal.num n) => if n.isInteger then toString n.intValue else n.toFixed2
  | some (JsonVal.obj fs) => jstringify (JsonVal.obj fs)
  | some (JsonVal.arr es) => jstringify (JsonVal.arr es)
  | some (JsonVal.str s) => s

end LegoDashboard.NgsiCard

namespace LegoDashboard

/-- One hexadecimal digit, upper case, as `encodeURIComponent` emits it. -/
def hexDigit (n : Nat) : Char :=
  if n < 10 then Char.ofNat (48 + n) else Char.ofNat (55 + n)

/-- UTF-8 code units of a character, as byte values. -/
def utf8Bytes (c : Char) : List Nat :=
  let n := c.toNat
  if n < 128 then [n]
  else if n < 2048 then [192 + n / 64, 128 + n % 64]
  else if n < 65536 then [224 + n / 4096, 128 + (n / 64) % 64, 128 + n % 64]
  else [240 + n / 262144, 128 + (n / 4096) % 64, 128 + (n / 64) % 64, 128 + n % 64]

/-- Characters `encodeURIComponent` leaves unescaped. -/
def isUriUnreserved (c : Char) : Bool :=
  c.isAlpha || c.isDigit || c == '-' || c == '_' || c == '.' || c == '!' ||
    c == '~' || c == '*' || c == '\'' || c == '(' || c == ')'

/-- JavaScript `encodeURIComponent`: percent-encode the UTF-8 bytes of every
reserved character. -/
def encodeURIComponent (s : String) : String :=
  String.mk (s.data.flatMap (fun c =>
    if isUriUnreserved c then [c]
    else (utf8Bytes c).flatMap (fun b => ['%', hexDigit (b / 16), hexDigit (b % 16)])))

/-- `buildLinkHeader` (client.ts lines 619-621). -/
def buildLinkHeader (contextUrl : String) : String :=
  "<" ++ contextUrl ++ ">; rel=\"http://www.w3.org/ns/json-ld#context\"; type=\"application/ld+json\""

/-- An HTTP request as the client layer assembles it: method, path, query
parameters, per-request headers and optional JSON body. -/
structure HttpRequest where
  method : String
  url : String
  params : List (String × String) := []
  headers : List (String × String)
  body : Option JsonVal := none

/-- What the broker (or the network) does with one request: an HTTP response
with a status and a JSON body, or a transport failure. -/
inductive BrokerAnswer : Type where
  | response (status : Nat) (data : JsonVal)
  | network (message : String)

/-- A rejected axios promise: an error carrying the response (status and
body) for a non-2xx answer, or a response-less network error. -/
inductive AxiosFailure : Type where
  | http (status : Nat) (data : JsonVal)
  | network (message : String)

/-- The axios settling discipline under the default `validateStatus`: a 2xx
response resolves with its body, any other status rejects with an error
carrying the response, and a transport failure rejects without a response. -/
def axiosRequest : BrokerAnswer → Except AxiosFailure JsonVal
  | BrokerAnswer.response status data =>
    if 200 ≤ status ∧ status < 300 then Except.ok data
    else Except.error (AxiosFailure.http status data)
  | BrokerAnswer.network m => Except.error (AxiosFailure.network m)

end LegoDashboard

namespace LegoDashboard.NgsiLdOperations

open LegoDashboard

/-- The request `NgsiLdOperations.getEntity` issues (client.ts lines 684-704):
embedded-context mode asks for `application/ld+json` and omits the Link
header; otherwise the compacted mode asks for `application/json` with the
Link header built from the configured context URL. `embedContext` is the
optional boolean of the options bag. -/
def getEntityRequest (contextUrl entityId : String) (embedContext : Option Bool) :
    HttpRequest :=
  { method := "GET",
    url := "/ngsi-ld/v1/entities/" ++ encodeURIComponent entityId,
    headers :=
      if embedContext = some true then
        [("Accept", "application/ld+json")]
      else
        [("Accept", "application/json"), ("Link", buildLinkHeader contextUrl)] }

/-- The request `NgsiLdOperations.updateEntityAttrs` issues (client.ts lines
710-717): a PATCH of the attribute subset to the entity's attrs resource. -/
def updateEntityAttrsRequest (contextUrl entityId : String)
    (attrs : List (String × JsonVal)) : HttpRequest :=
  { method := "PATCH",
    url := "/ngsi-ld/v1/entities/" ++ encodeURIComponent entityId ++ "/attrs",
    headers := [("Content-Type", "application/json"),
                ("Link", buildLinkHeader contextUrl)],
    body := some (JsonVal.obj attrs) }

/-- The value `updateEntityAttrs` settles to: the method awaits the PATCH and
returns `Promise<void>`, so a resolved response yields unit (its body is
dropped) and a rejection propagates. -/
def updateEntityAttrs (answer : BrokerAnswer) : Except AxiosFailure Unit :=
  match axiosRequest answer with
  | Except.ok _ => Except.ok ()
  | Except.error e => Except.error e

/-- The `error.response?.status` of a rejected axios promise: present only
when the rejection carries a response. -/
def axiosStatus : AxiosFailure → Option Nat
  | AxiosFailure.http status _ => some status
  | AxiosFailure.network _ => none

/-- `NgsiLdOperations.entityExists` (client.ts lines 729-739): a HEAD request;
a resolved (2xx) answer yields true, a rejection whose response status is 404
yields false, and any other rejection is rethrown unchanged. -/
def entityExists (answer : BrokerAnswer) : Except AxiosFailure Bool :=
  match axiosRequest answer with
  | Except.ok _ => Except.ok true
  | Except.error e =>
    if axiosStatus e = some 404 then Except.ok false else Except.error e

/-- The entity argument of `upsertEntity`: TypeScript type
`{id: string; type: string; [key: string]: unknown}`, so an `id` and `type`
string plus the remaining own properties in insertion order. -/
structure UpsertBody where
  id : String
  type : String
  extra : List (String × JsonVal)

/-- The property list of an upsert body as a JavaScript object literal. -/
def UpsertBody.fields (e : UpsertBody) : List (String × JsonVal) :=
  ("id", JsonVal.str e.id) :: ("type", JsonVal.str e.type) :: e.extra

/-- The rest-destructuring `const {id: _id, type: _type, ...attrs} = entity`:
every own property except `id` and `type`, order preserved. -/
def restOmitIdType (fields : List (String × JsonVal)) : List (String × JsonVal) :=
  fields.filter (fun kv => !(kv.1 == "id") && !(kv.1 == "type"))

/-- One call the operations client makes against the broker. -/
inductive NgsiCall : Type where
  | headCall (entityId : String)
  | createCall (body : List (String × JsonVal))
  | patchCall (entityId : String) (attrs : List (String × JsonVal))

/-- Whether a broker call writes (POST or PATCH, not HEAD). -/
def NgsiCall.isWrite : NgsiCall → Bool
  | NgsiCall.headCall _ => false
  | NgsiCall.createCall _ => true
  | NgsiCall.patchCall _ _ => true

/-- `NgsiLdOperations.upsertEntity` (client.ts lines 744-760) as the calls it
issues and the branch it reports, given what the broker answers to the
existence probe: probe first; if the entity exists, PATCH the body without
`id`/`type` and report updated; if absent, POST the whole body and report
created; a probe failure propagates. -/
def upsertEntity (probeAnswer : BrokerAnswer) (e : UpsertBody) :
    Except AxiosFailure (String × List NgsiCall) :=
  match entityExists probeAnswer with
  | Except.ok true =>
    Except.ok ("updated",
      [NgsiCall.headCall e.id, NgsiCall.patchCall e.id (restOmitIdType e.fields)])
  | Except.ok false =>
    Except.ok ("created", [NgsiCall.headCall e.id, NgsiCall.createCall e.fields])
  | Except.error err => Except.error err

end LegoDashboard.NgsiLdOperations

namespace LegoDashboard

/-- An entity row of the broker's discovery answer (keyValues form). -/
structure BrokerEntity where
  id : String
  type : String
deriving DecidableEq

/-- One discovered entity as `discoverEntitiesEndpoint` collects it. -/
structure DiscoveredEntity where
  id : String
  type : String
  service : String
  servicePath : String
deriving DecidableEq

/-- Why one tenant-scope broker call failed: an axios error (whose response
body may carry a ProblemDetails `detail`) or anything else. -/
inductive ScopeFailure : Type where
  | axiosErr (detail : Option String) (message : String)
  | otherErr

/-- The error string `discoverEntitiesEndpoint` appends for a failed scope
(syncEntities.ts lines 76-81): the scope tag followed by the most specific
axios message, or `Unknown error`. -/
def scopeErrorMsg (service servicePath : String) (f : ScopeFailure) : String :=
  match f with
  | ScopeFailure.axiosErr detail message =>
    jsStrOr service "(default)" ++ servicePath ++ ": " ++
      (match detail with
       | some d => jsStrOr d message
       | none => message)
  | ScopeFailure.otherErr =>
    jsStrOr service "(default)" ++ servicePath ++ ": Unknown error"

/-- The JSON payload of a successful discovery response. -/
structure DiscoverOutput where
  entities : List (DiscoveredEntity × Bool)
  total : Nat
  alreadySynced : Nat
  errors : List String

/-- The body of one iteration of the discovery loop (syncEntities.ts lines
47-83): a successful broker call appends its entities, a failed one appends
one tagged error string, and either way the loop continues. -/
def discoverScope (broker : String → String → Except ScopeFailure (List BrokerEntity))
    (acc : List DiscoveredEntity × List String) (service servicePath : String) :
    List DiscoveredEntity × List String :=
  match broker service servicePath with
  | Except.ok es =>
    (acc.1 ++ es.map (fun e =>
      { id := e.id, type := e.type,
        service := jsStrOr service "",
        servicePath := jsStrOr servicePath "/" }), acc.2)
  | Except.error f => (acc.1, acc.2 ++ [scopeErrorMsg service servicePath f])

/-- `discoverEntitiesEndpoint` (syncEntities.ts lines 43-106) after the source
is resolved: iterate the service × servicePath cross product, then mark every
discovered entity with membership of its id in the ids of the entities the
local store already holds for this source. -/
def discoverEntities (services servicePaths : List String)
    (broker : String → String → Except ScopeFailure (List BrokerEntity))
    (localEntityIds : List String) : DiscoverOutput :=
  let looped := services.foldl
    (fun acc service =>
      servicePaths.foldl
        (fun acc2 servicePath => discoverScope broker acc2 service servicePath) acc)
    ([], [])
  let entitiesWithStatus := looped.1.map (fun e => (e, localEntityIds.contains e.id))
  { entities := entitiesWithStatus,
    total := looped.1.length,
    alreadySynced := (entitiesWithStatus.filter (fun p => p.2)).length,
    errors := looped.2 }

/-- Specification-side recomputation of one scope's contribution to the
discovered-entity list, for comparison with `discoverEntities`. -/
def scopeOkEntities (broker : String → String → Except ScopeFailure (List BrokerEntity))
    (sp : String × String) : List DiscoveredEntity :=
  match broker sp.1 sp.2 with
  | Except.ok es =>
    es.map (fun e =>
      { id := e.id, type := e.type,
        service := jsStrOr sp.1 "",
        servicePath := jsStrOr sp.2 "/" })
  | Except.error _ => []

/-- Specification-side recomputation of one scope's contribution to the error
list, for comparison with `discoverEntities`. -/
def scopeErrorEntry (broker : String → String → Except ScopeFailure (List BrokerEntity))
    (sp : String × String) : Option String :=
  match broker sp.1 sp.2 with
  | Except.ok _ => none
  | Except.error f => some (scopeErrorMsg sp.1 sp.2 f)

/-- Whether an exceptional computation succeeded. -/
def exceptOk {ε α : Type} : Except ε α → Bool
  | Except.ok _ => true
  | Except.error _ => false

/-- A two-tenant broker: the `alpha` service answers with two entities, any
other scope fails with a ProblemDetails detail. Used to evaluate the
discovery endpoint on concrete inputs. -/
def discoveryExampleBroker : String → String → Except ScopeFailure (List BrokerEntity) :=
  fun service _ =>
    if service = "alpha" then
      Except.ok [{ id := "urn:1", type := "T" }, { id := "urn:2", type := "T" }]
    else Except.error (ScopeFailure.axiosErr (some "boom") "Request failed")

/-- One candidate of an import request body. -/
structure ImportCandidate where
  entityId : String
  type : String
  service : String
  servicePath : String
  attributes : Option JsonVal

/-- One record of the local `ngsi-entities` collection as the import endpoint
creates it. -/
structure LocalEntity where
  dataModel : String
  type : String
  shortId : String
  entityId : String
  source : String
  service : String
  servicePath : String
  attributes : JsonVal
  syncStatus : String
  lastSyncTime : String
  skipSyncCtx : Bool

/-- Whether the local store already holds a record with this NGSI-LD id. -/
def storeHas (store : List LocalEntity) (entityId : String) : Bool :=
  store.any (fun rec => rec.entityId == entityId)

/-- The running state of one import batch: the local entity store, the data
model collection (by model name), and the accumulating result lists. -/
structure ImportState where
  store : List LocalEntity
  dataModels : List String
  success : List String
  failed : List (String × String)

/-- The local record `importEntitiesEndpoint` persists for a novel candidate
(syncEntities.ts lines 197-215): the resolved-or-created data model by name,
the normalized short type, the short id after the last colon, the tenant
scope with its defaults, the candidate attributes, and synced status created
under the skipSync context. -/
def importedRecord (sourceId now : String) (st : ImportState)
    (e : ImportCandidate) : LocalEntity :=
  { dataModel :=
      (match st.dataModels.find?
          (fun m => m == e.type || m == normalizeType e.type) with
        | some m => m
        | none => normalizeType e.type),
    type := normalizeType e.type,
    shortId := jsSplitPopOr ':' e.entityId,
    entityId := e.entityId,
    source := sourceId,
    service := jsStrOr e.service "",
    servicePath := jsStrOr e.servicePath "/",
    attributes := e.attributes.getD (JsonVal.obj []),
    syncStatus := "synced", lastSyncTime := now, skipSyncCtx := true }

/-- One iteration of `importEntitiesEndpoint`'s loop (syncEntities.ts lines
144-222): normalize the type, find or create the matching data model, reject
a candidate whose entityId the store already holds, otherwise persist a new
synced record under skipSync (unless the data layer throws, which `dbFail`
models) — and in every case continue with the next candidate. -/
def importStep (sourceId now : String) (dbFail : ImportCandidate → Option String)
    (st : ImportState) (e : ImportCandidate) : ImportState :=
  let simpleType := normalizeType e.type
  let found := st.dataModels.find? (fun m => m == e.type || m == simpleType)
  let dms := match found with
    | some _ => st.dataModels
    | none => st.dataModels ++ [simpleType]
  if storeHas st.store e.entityId then
    { st with dataModels := dms,
              failed := st.failed ++ [(e.entityId, "Entity already exists")] }
  else
    match dbFail e with
    | some msg =>
      { st with dataModels := dms, failed := st.failed ++ [(e.entityId, msg)] }
    | none =>
      { store := st.store ++ [importedRecord sourceId now st e],
        dataModels := dms,
        success := st.success ++ [e.entityId],
        failed := st.failed }

/-- `importEntitiesEndpoint` (syncEntities.ts lines 139-228) after the source
is resolved: fold the loop body over the batch, starting from the current
store and data models with empty result lists. -/
def importEntities (sourceId now : String) (dbFail : ImportCandidate → Option String)
    (batch : List ImportCandidate) (store0 : List LocalEntity)
    (dataModels0 : List String) : ImportState :=
  batch.foldl (importStep sourceId now dbFail)
    { store := store0, dataModels := dataModels0, success := [], failed := [] }

/-- An import candidate whose id the example store already holds. -/
def dupCandidate : ImportCandidate :=
  { entityId := "urn:dup", type := "https://x/T", service := "", servicePath := "/",
    attributes := none }

/-- An import candidate new to the example store. -/
def novelCandidate : ImportCandidate :=
  { entityId := "urn:novel", type := "T", service := "", servicePath := "/",
    attributes := some (JsonVal.obj [("name", JsonVal.str "n")]) }

/-- An example local store holding only the duplicate candidate's id. -/
def exampleStore : List LocalEntity :=
  [{ dataModel := "T", type := "T", shortId := "dup", entityId := "urn:dup",
     source := "src1", service := "", servicePath := "/",
     attributes := JsonVal.obj [], syncStatus := "synced", lastSyncTime := "T0",
     skipSyncCtx := true }]

end LegoDashboard

namespace LegoDashboard

/-- A JavaScript thrown value as `resyncEntityEndpoint`'s catch block
inspects it: whether it is an `Error` instance and its `message`; whether it
is a non-null object with a `response` property, that response's `data`
(`none` when undefined), and the JSON rendering of the thrown value itself
for the stringify fallback. -/
structure ThrownError where
  isErrorInstance : Bool
  message : String
  isObject : Bool
  hasResponseField : Bool
  responseData : Option JsonVal
  selfJson : JsonVal

/-- The `errorMessage` computed by `resyncEntityEndpoint`'s catch block
(part_003 lines 907-912): the error's own `message` for any `Error` instance,
else `JSON.stringify(error.response?.data || error)` for an object with a
`response` property, else `Unknown error`. -/
def resyncErrorMessage (e : ThrownError) : String :=
  if e.isErrorInstance then e.message
  else if e.isObject && e.hasResponseField then
    jstringify (if jsTruthy e.responseData then e.responseData.getD JsonVal.null
                else e.selfJson)
  else "Unknown error"

/-- The most specific message the specification asks for: the broker
ProblemDetails `detail` when present, else its `title`, else the raw error
message. Stated for comparison with `resyncErrorMessage`. -/
def specMostSpecificMessage (e : ThrownError) : String :=
  let field := fun (k : String) =>
    match e.responseData with
    | some (JsonVal.obj fs) =>
      match fs.lookup k with
      | some (JsonVal.str s) => some s
      | _ => none
    | _ => none
  match field "detail" with
  | some d => d
  | none =>
    match field "title" with
    | some t => t
    | none => e.message

/-- A rejected axios upsert as `resyncEntityEndpoint` catches it when the
broker refuses the write with a ProblemDetails body: an `Error` instance
whose generic message names only the status code while the response data
carries the specific `title` and `detail`. -/
def axiosConflictError : ThrownError :=
  { isErrorInstance := true,
    message := "Request failed with status code 409",
    isObject := true,
    hasResponseField := true,
    responseData := some (JsonVal.obj
      [("type", JsonVal.str "urn:ngsi-ld:errors:AlreadyExists"),
       ("title", JsonVal.str "Entity already exists"),
       ("detail", JsonVal.str "The referred element already exists")]),
    selfJson := JsonVal.obj [] }

/-- The update `resyncEntityEndpoint` writes to the local record, plus the
HTTP status and body text of its response. -/
structure SyncStatusUpdate where
  syncStatus : String
  lastSyncTime : String
  lastSyncError : Option String
  skipSync : Bool

/-- `resyncEntityEndpoint` (part_003 lines 889-928) after the upsert: a
successful push updates the record to synced at the current time with the
error cleared; a thrown error updates it to error with the computed message;
both updates pass the skipSync context, and the endpoint issues no further
broker call. -/
def resyncOutcome (upsertResult : Except ThrownError String) (now : String) :
    SyncStatusUpdate × Nat × String :=
  match upsertResult with
  | Except.ok _ =>
    ({ syncStatus := "synced", lastSyncTime := now, lastSyncError := none,
       skipSync := true }, 200, "Entity resynced successfully")
  | Except.error e =>
    ({ syncStatus := "error", lastSyncTime := now,
       lastSyncError := some (resyncErrorMessage e), skipSync := true },
     500, resyncErrorMessage e)

/-- JavaScript `searchParams.get(k) || undefined` composed with truthiness:
an absent or empty query parameter becomes `undefined`. -/
def jsParamOrUndefined (o : Option String) : Option String :=
  match o with
  | some s => if s = "" then none else some s
  | none => none

/-- The broker request assembled by the server-side entity query route
(`GET /api/ngsi/entities`, route.ts lines 59-85) once `sourceId` and `type`
validation passed: a GET of the entities collection for the requested type,
with `Accept: application/json`, tenant headers only when the query supplied
them, and no Link header; the `contextUrl` query parameter is read (line 21)
but takes no part in the request. -/
def entitiesRouteBrokerRequest (entityType : String)
    (rawTenant rawServicePath rawContextUrl : Option String) : HttpRequest :=
  let tenant := jsParamOrUndefined rawTenant
  let servicePath := jsParamOrUndefined rawServicePath
  let _contextUrl := jsParamOrUndefined rawContextUrl
  { method := "GET",
    url := "/ngsi-ld/v1/entities",
    params := [("type", entityType)],
    headers :=
      [("Accept", "application/json")]
      ++ (match tenant with
          | some t => [("Fiware-Service", t), ("NGSILD-Tenant", t)]
          | none => [])
      ++ (match servicePath with
          | some p => [("Fiware-ServicePath", p)]
          | none => []) }

end LegoDashboard

/- ======================= THEOREMS ======================= -/

namespace LegoDashboard

theorem afterLastSep_of_not_mem {sep : Char} {cs : List Char}
    (h : sep ∉ cs) : afterLastSep sep cs = cs := by
  cases cs with
  | nil => rfl
  | cons c rest =>
    have hc : ¬ c = sep := fun hcc => h (by simp [hcc])
    have hr : sep ∉ rest := fun hm => h (List.mem_cons_of_mem _ hm)
    simp [afterLastSep, List.contains, hc, hr]

theorem not_mem_afterLastSep (sep : Char) (cs : List Char) :
    sep ∈ cs → sep ∉ afterLastSep sep cs := by
  induction cs with
  | nil => intro h; cases h
  | cons c rest ih =>
    intro hmem
    by_cases hr : sep ∈ rest
    · have hstep : afterLastSep sep (c :: rest) = afterLastSep sep rest := by
        simp [afterLastSep, List.contains, hr]
      rw [hstep]; exact ih hr
    · have hc : c = sep := by
        rcases List.mem_cons.mp hmem with h1 | h2
        · exact h1.symm
        · exact absurd h2 hr
      have hstep : afterLastSep sep (c :: rest) = afterLastSep sep rest := by
        simp [afterLastSep, hc]
      rw [hstep, afterLastSep_of_not_mem hr]; exact hr

theorem normalizeType_idem (t : String) :
    normalizeType (normalizeType t) = normalizeType t := by
  by_cases hslash : '/' ∈ t.data
  · have hmem := hslash
    unfold normalizeType jsSplitPopOr jsStrOr
    simp only [List.contains, List.elem_eq_mem, hmem, decide_eq_true_eq, if_true,
      decide_true_eq_true, if_pos]
    by_cases hempty : String.mk (afterLastSep '/' t.data) = ""
    · simp [List.contains, hmem, hempty]
    · simp only [hempty, if_false]
      have hnot : '/' ∉ afterLastSep '/' t.data := not_mem_afterLastSep '/' t.data hmem
      have hcon : ('/' ∈ (String.mk (afterLastSep '/' t.data)).data) = False := by
        simp only [String.mk]
        exact eq_false hnot
      simp [List.contains, hcon]
  · unfold normalizeType
    simp [List.contains, hslash]

/-- C8 counterexample: for the type string `x/` (which ends in a slash), the
code keeps the whole string because the popped component is empty and the
`|| entity.type` fallback kicks in, so normalization does not map it to the
substring after its last slash. -/
theorem normalizeType_trailing_slash_cex :
    normalizeType "x/" = "x/"
    ∧ substringAfterLastSlash "x/" = ""
    ∧ ("x/" : String) ≠ "" :=
  ⟨by decide, by decide, by decide⟩

/-- C8 (amended): type normalization maps a type string containing a slash to
the substring after its last slash when that substring is nonempty, and
leaves the string unchanged otherwise (in particular when it contains no
slash); it is idempotent on every string, and
`normalize("https://x/y/Weather") = normalize("Weather") = "Weather"`. -/
theorem normalizeType_spec :
    (∀ t : String, normalizeType (normalizeType t) = normalizeType t)
    ∧ (∀ t : String, t.data.contains '/' = true → substringAfterLastSlash t ≠ "" →
        normalizeType t = substringAfterLastSlash t)
    ∧ (∀ t : String, t.data.contains '/' = false → normalizeType t = t)
    ∧ normalizeType "https://x/y/Weather" = "Weather"
    ∧ normalizeType "Weather" = "Weather"
    ∧ normalizeType "x/" = "x/" := by
  refine ⟨normalizeType_idem, ?_, ?_, by decide, by decide, by decide⟩
  · intro t h1 h2
    have hm : '/' ∈ t.data := by simpa [List.contains] using h1
    unfold normalizeType jsSplitPopOr jsStrOr substringAfterLastSlash at *
    simp [List.contains, hm, h2]
  · intro t h1
    have hm : '/' ∉ t.data := by simpa [List.contains] using h1
    unfold normalizeType
    simp [List.contains, hm]

/-- C1: `getEntity` with `embedContext` true sends `Accept: application/ld+json`
and no Link header; with `embedContext` absent or false it sends
`Accept: application/json` together with the Link header
`<contextUrl>; rel="http://www.w3.org/ns/json-ld#context"; type="application/ld+json"`
built from the configured context URL; and no request of this operation
carries a Link header alongside `Accept: application/ld+json`. -/
theorem getEntity_header_rule :
    ∀ contextUrl entityId : String,
      ((NgsiLdOperations.getEntityRequest contextUrl entityId (some true)).headers.lookup "Accept"
          = some "application/ld+json"
        ∧ (NgsiLdOperations.getEntityRequest contextUrl entityId (some true)).headers.lookup "Link"
          = none)
      ∧ (∀ o : Option Bool, o = none ∨ o = some false →
          (NgsiLdOperations.getEntityRequest contextUrl entityId o).headers.lookup "Accept"
            = some "application/json"
          ∧ (NgsiLdOperations.getEntityRequest contextUrl entityId o).headers.lookup "Link"
            = some ("<" ++ contextUrl ++
                ">; rel=\"http://www.w3.org/ns/json-ld#context\"; type=\"application/ld+json\""))
      ∧ (∀ o : Option Bool,
          (NgsiLdOperations.getEntityRequest contextUrl entityId o).headers.lookup "Accept"
            = some "application/ld+json" →
          (NgsiLdOperations.getEntityRequest contextUrl entityId o).headers.lookup "Link"
            = none) := by
  intro contextUrl entityId
  refine ⟨⟨?_, ?_⟩, ?_, ?_⟩
  · simp [NgsiLdOperations.getEntityRequest, List.lookup]
  · simp [NgsiLdOperations.getEntityRequest, List.lookup]
  · rintro o (rfl | rfl) <;>
      exact ⟨by simp [NgsiLdOperations.getEntityRequest, List.lookup],
        by simp [NgsiLdOperations.getEntityRequest, List.lookup, buildLinkHeader]⟩
  · intro o h
    by_cases ho : o = some true
    · subst ho; simp [NgsiLdOperations.getEntityRequest, List.lookup]
    · exfalso
      simp [NgsiLdOperations.getEntityRequest, ho, List.lookup] at h

/-- C10: the server-side entity query route always asks the broker for
compacted JSON (`Accept: application/json`), never attaches a Link header,
and its outgoing request does not depend on the `contextUrl` query parameter
at all. -/
theorem entitiesRoute_compacted_no_link :
    ∀ (entityType : String) (rawTenant rawServicePath rawContextUrl rawContextUrl' : Option String),
      (entitiesRouteBrokerRequest entityType rawTenant rawServicePath rawContextUrl).headers.lookup "Accept"
        = some "application/json"
      ∧ (entitiesRouteBrokerRequest entityType rawTenant rawServicePath rawContextUrl).headers.lookup "Link"
        = none
      ∧ entitiesRouteBrokerRequest entityType rawTenant rawServicePath rawContextUrl
        = entitiesRouteBrokerRequest entityType rawTenant rawServicePath rawContextUrl' := by
  intro entityType rawTenant rawServicePath rawContextUrl rawContextUrl'
  refine ⟨?_, ?_, rfl⟩ <;>
    cases h1 : jsParamOrUndefined rawTenant <;>
      cases h2 : jsParamOrUndefined rawServicePath <;>
        simp [entitiesRouteBrokerRequest, h1, h2, List.lookup]

/-- C9 counterexample: two 207 multi-status responses whose bodies carry
different `notUpdated` details settle `updateEntityAttrs` to the same unit
value, so the caller cannot recover the multi-status detail — it is
discarded, not surfaced. -/
theorem updateEntityAttrs_207_detail_lost_cex :
    NgsiLdOperations.updateEntityAttrs
        (BrokerAnswer.response 207
          (JsonVal.obj [("notUpdated", JsonVal.arr [JsonVal.str "temperature"])]))
      = NgsiLdOperations.updateEntityAttrs
        (BrokerAnswer.response 207
          (JsonVal.obj [("notUpdated", JsonVal.arr [JsonVal.str "humidity"])]))
    ∧ JsonVal.obj [("notUpdated", JsonVal.arr [JsonVal.str "temperature"])]
        ≠ JsonVal.obj [("notUpdated", JsonVal.arr [JsonVal.str "humidity"])] :=
  ⟨rfl, by simp⟩

/-- C9 (amended): `updateEntityAttrs` sends a PATCH to the entity's attrs
resource carrying exactly the supplied attribute subset, and treats every 2xx
broker response — 207 multi-status included — as success; but the method
returns void, so the multi-status body of a 207 response is discarded rather
than surfaced to the caller. -/
theorem updateEntityAttrs_spec :
    ∀ (contextUrl entityId : String) (attrs : List (String × JsonVal)),
      (NgsiLdOperations.updateEntityAttrsRequest contextUrl entityId attrs).method = "PATCH"
      ∧ (NgsiLdOperations.updateEntityAttrsRequest contextUrl entityId attrs).url
          = "/ngsi-ld/v1/entities/" ++ encodeURIComponent entityId ++ "/attrs"
      ∧ (NgsiLdOperations.updateEntityAttrsRequest contextUrl entityId attrs).body
          = some (JsonVal.obj attrs)
      ∧ (∀ (status : Nat) (data : JsonVal), 200 ≤ status → status < 300 →
          NgsiLdOperations.updateEntityAttrs (BrokerAnswer.response status data)
            = Except.ok ())
      ∧ (∀ data : JsonVal,
          NgsiLdOperations.updateEntityAttrs (BrokerAnswer.response 207 data)
            = Except.ok ()) := by
  intro contextUrl entityId attrs
  refine ⟨rfl, rfl, rfl, ?_, fun data => rfl⟩
  intro status data h1 h2
  simp [NgsiLdOperations.updateEntityAttrs, axiosRequest, h1, h2]

/-- C3: `entityExists` resolves to false exactly when the broker answered
404, resolves to true on every 2xx answer, and rethrows the rejection
unchanged for every other failure status and for transport errors. -/
theorem entityExists_spec :
    (∀ a : BrokerAnswer, NgsiLdOperations.entityExists a = Except.ok false ↔
        ∃ d : JsonVal, a = BrokerAnswer.response 404 d)
    ∧ (∀ (status : Nat) (d : JsonVal), 200 ≤ status → status < 300 →
        NgsiLdOperations.entityExists (BrokerAnswer.response status d) = Except.ok true)
    ∧ (∀ (status : Nat) (d : JsonVal), ¬(200 ≤ status ∧ status < 300) → status ≠ 404 →
        NgsiLdOperations.entityExists (BrokerAnswer.response status d)
          = Except.error (AxiosFailure.http status d))
    ∧ (∀ m : String, NgsiLdOperations.entityExists (BrokerAnswer.network m)
        = Except.error (AxiosFailure.network m)) := by
  refine ⟨?_, ?_, ?_, fun m => rfl⟩
  · intro a
    constructor
    · intro h
      cases a with
      | response status d =>
        by_cases h2 : 200 ≤ status ∧ status < 300
        · exfalso
          simp [NgsiLdOperations.entityExists, axiosRequest, h2] at h
        · by_cases h4 : status = 404
          · exact ⟨d, by rw [h4]⟩
          · exfalso
            simp [NgsiLdOperations.entityExists, axiosRequest,
              NgsiLdOperations.axiosStatus, h2, h4] at h
      | network m =>
        exfalso
        simp [NgsiLdOperations.entityExists, axiosRequest,
          NgsiLdOperations.axiosStatus] at h
    · rintro ⟨d, rfl⟩
      rfl
  · intro status d h1 h2
    simp [NgsiLdOperations.entityExists, axiosRequest, h1, h2]
  · intro status d h2 h4
    simp [NgsiLdOperations.entityExists, axiosRequest,
      NgsiLdOperations.axiosStatus, h2, h4]

/-- C2: `upsertEntity` first probes with `entityExists`; when the probe
reports absent it creates with the full entity and reports created, when it
reports present it patches only the attributes left after removing the `id`
and `type` keys and reports updated; and in either branch the composite
issues exactly one broker write. -/
theorem upsertEntity_spec (e : NgsiLdOperations.UpsertBody) (a : BrokerAnswer)
    (hextra : ∀ kv ∈ e.extra, kv.1 ≠ "id" ∧ kv.1 ≠ "type") :
    (NgsiLdOperations.entityExists a = Except.ok false →
      NgsiLdOperations.upsertEntity a e = Except.ok ("created",
        [NgsiLdOperations.NgsiCall.headCall e.id,
         NgsiLdOperations.NgsiCall.createCall
           (("id", JsonVal.str e.id) :: ("type", JsonVal.str e.type) :: e.extra)]))
    ∧ (NgsiLdOperations.entityExists a = Except.ok true →
      NgsiLdOperations.upsertEntity a e = Except.ok ("updated",
        [NgsiLdOperations.NgsiCall.headCall e.id, NgsiLdOperations.NgsiCall.patchCall e.id e.extra]))
    ∧ (∀ (branch : String) (calls : List NgsiLdOperations.NgsiCall),
        NgsiLdOperations.upsertEntity a e = Except.ok (branch, calls) →
        (calls.filter NgsiLdOperations.NgsiCall.isWrite).length = 1) := by
  have hrest : NgsiLdOperations.restOmitIdType e.fields = e.extra := by
    unfold NgsiLdOperations.restOmitIdType NgsiLdOperations.UpsertBody.fields
    rw [List.filter_cons_of_neg (by simp), List.filter_cons_of_neg (by simp)]
    rw [List.filter_eq_self]
    intro kv hkv
    have h1 := (hextra kv hkv).1
    have h2 := (hextra kv hkv).2
    simp [h1, h2]
  refine ⟨?_, ?_, ?_⟩
  · intro hprobe
    unfold NgsiLdOperations.upsertEntity
    rw [hprobe]
    rfl
  · intro hprobe
    unfold NgsiLdOperations.upsertEntity
    rw [hprobe, hrest]
  · intro branch calls h
    unfold NgsiLdOperations.upsertEntity at h
    cases hE : NgsiLdOperations.entityExists a with
    | ok b =>
      rw [hE] at h
      cases b with
      | false =>
        simp only [Except.ok.injEq, Prod.mk.injEq] at h
        rw [← h.2]
        simp [List.filter_cons, NgsiLdOperations.NgsiCall.isWrite]
      | true =>
        simp only [Except.ok.injEq, Prod.mk.injEq] at h
        rw [← h.2]
        simp [List.filter_cons, NgsiLdOperations.NgsiCall.isWrite]
    | error err =>
      rw [hE] at h
      exact absurd h (by simp)

/-- C2 witness: a concrete upsert against a broker whose probe answers 404
takes the created branch with the single POST of the full body, and against a
broker whose probe answers 204 takes the updated branch patching only the
attribute remainder. -/
theorem upsertEntity_witness :
    NgsiLdOperations.upsertEntity (BrokerAnswer.response 404 JsonVal.null)
        ⟨"urn:ngsi-ld:Weather:1", "Weather", [("temperature", JsonVal.num ⟨21, 0⟩)]⟩
      = Except.ok ("created",
        [NgsiLdOperations.NgsiCall.headCall "urn:ngsi-ld:Weather:1",
         NgsiLdOperations.NgsiCall.createCall
           [("id", JsonVal.str "urn:ngsi-ld:Weather:1"),
            ("type", JsonVal.str "Weather"),
            ("temperature", JsonVal.num ⟨21, 0⟩)]])
    ∧ NgsiLdOperations.upsertEntity (BrokerAnswer.response 204 JsonVal.null)
        ⟨"urn:ngsi-ld:Weather:1", "Weather", [("temperature", JsonVal.num ⟨21, 0⟩)]⟩
      = Except.ok ("updated",
        [NgsiLdOperations.NgsiCall.headCall "urn:ngsi-ld:Weather:1",
         NgsiLdOperations.NgsiCall.patchCall "urn:ngsi-ld:Weather:1" [("temperature", JsonVal.num ⟨21, 0⟩)]]) :=
  ⟨(upsertEntity_spec ⟨"urn:ngsi-ld:Weather:1", "Weather", [("temperature", JsonVal.num ⟨21, 0⟩)]⟩
      (BrokerAnswer.response 404 JsonVal.null)
      (by rintro kv hkv; simp at hkv; subst hkv; exact ⟨by decide, by decide⟩)).1 rfl,
   ((upsertEntity_spec ⟨"urn:ngsi-ld:Weather:1", "Weather", [("temperature", JsonVal.num ⟨21, 0⟩)]⟩
      (BrokerAnswer.response 204 JsonVal.null)
      (by rintro kv hkv; simp at hkv; subst hkv; exact ⟨by decide, by decide⟩)).2.1) rfl⟩

/-- C3 witness: concrete probes — a 404 answer reports absent, a 204 answer
reports present, a 500 answer and a network failure are rethrown unchanged. -/
theorem entityExists_witness :
    NgsiLdOperations.entityExists (BrokerAnswer.response 404 JsonVal.null)
        = Except.ok false
    ∧ NgsiLdOperations.entityExists (BrokerAnswer.response 204 JsonVal.null)
        = Except.ok true
    ∧ NgsiLdOperations.entityExists (BrokerAnswer.response 500 JsonVal.null)
        = Except.error (AxiosFailure.http 500 JsonVal.null)
    ∧ NgsiLdOperations.entityExists (BrokerAnswer.network "timeout")
        = Except.error (AxiosFailure.network "timeout") :=
  ⟨(entityExists_spec.1 (BrokerAnswer.response 404 JsonVal.null)).mpr ⟨JsonVal.null, rfl⟩,
   entityExists_spec.2.1 204 JsonVal.null (by decide) (by decide),
   entityExists_spec.2.2.1 500 JsonVal.null (by decide) (by decide),
   entityExists_spec.2.2.2 "timeout"⟩

theorem string_data_append (a b : String) : (a ++ b).data = a.data ++ b.data := by
  cases a; cases b; rfl

theorem takeWhile_append_sat (p : Char → Bool) (l1 l2 : List Char)
    (h : ∀ c ∈ l1, p c = true) :
    (l1 ++ l2).takeWhile p = l1 ++ l2.takeWhile p := by
  induction l1 with
  | nil => simp
  | cons c rest ih =>
    simp only [List.cons_append, List.takeWhile_cons]
    rw [h c (List.mem_cons_self c rest)]
    simp [ih (fun x hx => h x (List.mem_cons_of_mem c hx))]

theorem parseTemplateAux_nil (props : JsonVal) (fuel : Nat) :
    MapboxLayerManager.parseTemplateAux props fuel [] = [] := by
  cases fuel <;> rfl

theorem parseTemplateAux_succ_match {inner tail cs : List Char}
    (props : JsonVal) (fuel : Nat)
    (h : MapboxLayerManager.matchPlaceholder cs = some (inner, tail)) :
    MapboxLayerManager.parseTemplateAux props (fuel + 1) cs
      = (MapboxLayerManager.formatValue
          (MapboxLayerManager.getNestedValue props (jsTrim (String.mk inner)))).data
        ++ MapboxLayerManager.parseTemplateAux props fuel tail := by
  show MapboxLayerManager.parseTemplateStep props
    (MapboxLayerManager.parseTemplateAux props fuel) cs = _
  unfold MapboxLayerManager.parseTemplateStep
  rw [h]

theorem matchPlaceholder_exact (p : List Char) (hne : p ≠ [])
    (hnb : ∀ c ∈ p, ¬ c = '}') :
    MapboxLayerManager.matchPlaceholder ('{' :: '{' :: (p ++ ['}', '}']))
      = some (p, []) := by
  have htw : (p ++ ['}', '}']).takeWhile (fun ch => !(ch == '}')) = p := by
    rw [takeWhile_append_sat _ _ _ (fun c hc => by simp [hnb c hc])]
    simp
  unfold MapboxLayerManager.matchPlaceholder
  simp only [htw, List.drop_left]
  have hie : p.isEmpty = false := by
    cases p with
    | nil => exact absurd rfl hne
    | cons a l => rfl
  simp [hie]

theorem parseTemplate_single_placeholder (props : JsonVal) (path : String)
    (hne : path.data ≠ []) (hnb : ∀ c ∈ path.data, ¬ c = '}') :
    MapboxLayerManager.parseTemplate ("\x7b\x7b" ++ path ++ "\x7d\x7d") props
      = MapboxLayerManager.formatValue
          (MapboxLayerManager.getNestedValue props (jsTrim path)) := by
  have hdata : ("\x7b\x7b" ++ path ++ "\x7d\x7d").data
      = '{' :: '{' :: (path.data ++ ['}', '}']) := by
    rw [string_data_append, string_data_append]
    rfl
  unfold MapboxLayerManager.parseTemplate
  rw [hdata]
  have hlen : ('{' :: '{' :: (path.data ++ ['}', '}'])).length
      = (path.data.length + 3) + 1 := by
    simp [List.length_append]
  rw [hlen, parseTemplateAux_succ_match props (path.data.length + 3)
    (matchPlaceholder_exact path.data hne hnb)]
  rw [parseTemplateAux_nil]
  simp

/-- C7 counterexample: the template renderer formats a boolean placeholder as
the string `true` — not a human label — and a missing path as the hyphen `-`,
not an em-dash; the em-dash and Yes/No labels belong to the separate NgsiCard
attribute formatter, which template rendering does not use. -/
theorem parseTemplate_formatting_cex :
    MapboxLayerManager.parseTemplate "\x7b\x7bflag\x7d\x7d"
        (JsonVal.obj [("flag", JsonVal.bool true)]) = "true"
    ∧ MapboxLayerManager.parseTemplate "\x7b\x7bdata.missing\x7d\x7d"
        (JsonVal.obj [("data", JsonVal.obj [("name", JsonVal.str "Foo")])]) = "-"
    ∧ ("true" : String) ≠ "Yes" ∧ ("true" : String) ≠ "No"
    ∧ ("-" : String) ≠ "—" :=
  ⟨by decide, by decide, by decide, by decide, by decide⟩

/-- C7 (amended): template rendering replaces every placeholder by resolving
its trimmed path as a dot-separated walk over the context, yielding the
renderer's hyphen marker (never a failure) when the walk dies; it formats
null/undefined as the hyphen, booleans through `String(value)` as
`true`/`false`, integers as-is, non-integral numbers with two fixed decimals
and objects as JSON text, and the example template renders to
`urn:x:1 - Foo`; the em-dash and Yes/No human labels belong to the NgsiCard
attribute formatter, which is not part of template rendering. -/
theorem parseTemplate_spec :
    (∀ (props : JsonVal) (path : String),
      path.data ≠ [] → (∀ c ∈ path.data, ¬ c = '}') →
      MapboxLayerManager.parseTemplate ("\x7b\x7b" ++ path ++ "\x7d\x7d") props
        = MapboxLayerManager.formatValue
            (MapboxLayerManager.getNestedValue props (jsTrim path)))
    ∧ MapboxLayerManager.parseTemplate "\x7b\x7bentityId\x7d\x7d - \x7b\x7bdata.name\x7d\x7d"
        (JsonVal.obj [("entityId", JsonVal.str "urn:x:1"),
          ("data", JsonVal.obj [("name", JsonVal.str "Foo")])])
        = "urn:x:1 - Foo"
    ∧ MapboxLayerManager.formatValue none = "-"
    ∧ MapboxLayerManager.formatValue (some JsonVal.null) = "-"
    ∧ (∀ b : Bool, MapboxLayerManager.formatValue (some (JsonVal.bool b))
        = if b then "true" else "false")
    ∧ MapboxLayerManager.formatValue (some (JsonVal.num ⟨3, 0⟩)) = "3"
    ∧ MapboxLayerManager.formatValue (some (JsonVal.num ⟨25, 1⟩)) = "2.50"
    ∧ MapboxLayerManager.formatValue
        (some (JsonVal.obj [("a", JsonVal.num ⟨1, 0⟩)])) = "\x7b\"a\":1\x7d"
    ∧ NgsiCard.formatValue (some (JsonVal.bool true)) = "Yes"
    ∧ NgsiCard.formatValue (some (JsonVal.bool false)) = "No"
    ∧ NgsiCard.formatValue none = "—"
    ∧ NgsiCard.formatValue (some JsonVal.null) = "—" := by
  refine ⟨parseTemplate_single_placeholder, by decide, by decide, by decide,
    fun b => by cases b <;> rfl, by decide, by decide, ?_, by decide, by decide,
    by decide, by decide⟩
  simp only [MapboxLayerManager.formatValue, jstringify, jstringifyFields,
    jsonNumRepr, jsonEscape, JsNumber.isInteger, JsNumber.intValue]
  rfl

/-- C6 counterexample: when the upsert rejects with an axios error whose
ProblemDetails body carries title and detail, the resync endpoint records the
error's generic message — not the broker detail or title — as
`lastSyncError`. -/
theorem resync_error_message_cex :
    (resyncOutcome (Except.error axiosConflictError)
        "2026-01-01T00:00:00.000Z").1.lastSyncError
      = some "Request failed with status code 409"
    ∧ specMostSpecificMessage axiosConflictError
      = "The referred element already exists"
    ∧ ("Request failed with status code 409" : String)
      ≠ "The referred element already exists" :=
  ⟨by decide, by decide, by decide⟩

/-- C6 (amended): a successful resync updates the local record to synced at
the current time with the error cleared; a thrown error updates it to error
(also stamping the time) with `lastSyncError` set to the thrown error's own
`message` whenever it is an `Error` instance — even when broker
ProblemDetails detail or title are present — else to the JSON text of the
error's truthy response data when the thrown value is an object with a
`response` field, else to `Unknown error`; both updates pass the skipSync
context, and the endpoint performs no retry (its outcome is a single update
and response). -/
theorem resyncOutcome_spec :
    (∀ (branch now : String), resyncOutcome (Except.ok branch) now
        = ({ syncStatus := "synced", lastSyncTime := now, lastSyncError := none,
             skipSync := true }, 200, "Entity resynced successfully"))
    ∧ (∀ (e : ThrownError) (now : String),
        (resyncOutcome (Except.error e) now).1
          = { syncStatus := "error", lastSyncTime := now,
              lastSyncError := some (resyncErrorMessage e), skipSync := true })
    ∧ (∀ (e : ThrownError) (now : String), e.isErrorInstance = true →
        (resyncOutcome (Except.error e) now).1.lastSyncError = some e.message)
    ∧ (∀ (e : ThrownError) (now : String), e.isErrorInstance = false →
        e.isObject = true → e.hasResponseField = true →
        jsTruthy e.responseData = true →
        (resyncOutcome (Except.error e) now).1.lastSyncError
          = some (jstringify (e.responseData.getD JsonVal.null)))
    ∧ (∀ (e : ThrownError) (now : String), e.isErrorInstance = false →
        (e.isObject && e.hasResponseField) = false →
        (resyncOutcome (Except.error e) now).1.lastSyncError
          = some "Unknown error")
    ∧ (∀ (r : Except ThrownError String) (now : String),
        (resyncOutcome r now).1.skipSync = true) := by
  refine ⟨fun branch now => rfl, fun e now => rfl, ?_, ?_, ?_, ?_⟩
  · intro e now h
    simp [resyncOutcome, resyncErrorMessage, h]
  · intro e now h1 h2 h3 h4
    simp [resyncOutcome, resyncErrorMessage, h1, h2, h3, h4]
  · intro e now h1 h2
    simp [resyncOutcome, resyncErrorMessage, h1, h2]
  · intro r now
    cases r <;> rfl

theorem discover_foldl_spec
    (broker : String → String → Except ScopeFailure (List BrokerEntity))
    (scopes : List (String × String)) :
    ∀ (d : List DiscoveredEntity) (e : List String),
      scopes.foldl (fun acc sp => discoverScope broker acc sp.1 sp.2) (d, e)
        = (d ++ scopes.flatMap (scopeOkEntities broker),
           e ++ scopes.filterMap (scopeErrorEntry broker)) := by
  induction scopes with
  | nil => intro d e; simp
  | cons sp rest ih =>
    intro d e
    simp only [List.foldl_cons, List.flatMap_cons, List.filterMap_cons]
    cases hb : broker sp.1 sp.2 with
    | ok es =>
      have hstep : discoverScope broker (d, e) sp.1 sp.2
          = (d ++ es.map (fun x =>
              { id := x.id, type := x.type, service := jsStrOr sp.1 "",
                servicePath := jsStrOr sp.2 "/" }), e) := by
        simp [discoverScope, hb]
      rw [hstep, ih]
      simp [scopeOkEntities, scopeErrorEntry, hb, List.append_assoc]
    | error f =>
      have hstep : discoverScope broker (d, e) sp.1 sp.2
          = (d, e ++ [scopeErrorMsg sp.1 sp.2 f]) := by
        simp [discoverScope, hb]
      rw [hstep, ih]
      simp [scopeOkEntities, scopeErrorEntry, hb, List.append_assoc]

theorem discover_nested_eq_flat
    (broker : String → String → Except ScopeFailure (List BrokerEntity))
    (services servicePaths : List String) :
    ∀ acc : List DiscoveredEntity × List String,
      services.foldl
        (fun acc s => servicePaths.foldl
          (fun acc2 p => discoverScope broker acc2 s p) acc) acc
      = (services.flatMap (fun s => servicePaths.map (fun p => (s, p)))).foldl
          (fun acc sp => discoverScope broker acc sp.1 sp.2) acc := by
  induction services with
  | nil => intro acc; simp
  | cons s rest ih =>
    intro acc
    simp only [List.foldl_cons, List.flatMap_cons, List.foldl_append]
    rw [List.foldl_map, ih]

theorem discover_errlen
    (broker : String → String → Except ScopeFailure (List BrokerEntity)) :
    ∀ scopes : List (String × String),
      (scopes.filterMap (scopeErrorEntry broker)).length
        = (scopes.filter (fun sp => !(exceptOk (broker sp.1 sp.2)))).length := by
  intro scopes
  induction scopes with
  | nil => rfl
  | cons sp rest ih =>
    simp only [List.filterMap_cons, List.filter_cons]
    cases hb : broker sp.1 sp.2 with
    | ok es => simp [scopeErrorEntry, exceptOk, hb, ih]
    | error f => simp [scopeErrorEntry, exceptOk, hb, ih]

/-- C4: over the cross product of the configured services and service paths,
discovery returns every entity of every successful scope (a failed scope
never aborts the others), collects exactly one tagged error string per failed
scope — so K failures yield exactly K error entries — and computes each
returned entity's alreadySynced flag solely from membership of its id among
the locally stored entity ids for the source. -/
theorem discoverEntities_spec :
    ∀ (services servicePaths : List String)
      (broker : String → String → Except ScopeFailure (List BrokerEntity))
      (localIds : List String),
      (discoverEntities services servicePaths broker localIds).errors
        = (services.flatMap (fun s => servicePaths.map (fun p => (s, p)))).filterMap
            (scopeErrorEntry broker)
      ∧ (discoverEntities services servicePaths broker localIds).errors.length
        = ((services.flatMap (fun s => servicePaths.map (fun p => (s, p)))).filter
            (fun sp => !(exceptOk (broker sp.1 sp.2)))).length
      ∧ (discoverEntities services servicePaths broker localIds).entities
        = (services.flatMap (fun s => servicePaths.map (fun p => (s, p)))).flatMap
            (fun sp => (scopeOkEntities broker sp).map
              (fun d => (d, localIds.contains d.id)))
      ∧ (∀ pe ∈ (discoverEntities services servicePaths broker localIds).entities,
          pe.2 = localIds.contains pe.1.id) := by
  intro services servicePaths broker localIds
  have hloop :
      (discoverEntities services servicePaths broker localIds).errors
        = (services.flatMap (fun s => servicePaths.map (fun p => (s, p)))).filterMap
            (scopeErrorEntry broker)
      ∧ (discoverEntities services servicePaths broker localIds).entities
        = ((services.flatMap (fun s => servicePaths.map (fun p => (s, p)))).flatMap
            (scopeOkEntities broker)).map
              (fun d => (d, localIds.contains d.id)) := by
    unfold discoverEntities
    rw [discover_nested_eq_flat, discover_foldl_spec]
    simp
  refine ⟨hloop.1, ?_, ?_, ?_⟩
  · rw [hloop.1, discover_errlen]
  · rw [hloop.2, List.map_flatMap]
  · intro pe hpe
    rw [hloop.2] at hpe
    rcases List.mem_map.mp hpe with ⟨d, _, rfl⟩
    rfl

/-- C4 witness: with services alpha (succeeding with two entities, one of
them already stored locally) and beta (failing), discovery still returns both
alpha entities with their membership-derived flags and exactly the one
tagged beta error. -/
theorem discoverEntities_witness :
    (discoverEntities ["alpha", "beta"] ["/"] discoveryExampleBroker ["urn:1"]).errors
      = ["beta/: boom"]
    ∧ (discoverEntities ["alpha", "beta"] ["/"] discoveryExampleBroker ["urn:1"]).entities
      = [({ id := "urn:1", type := "T", service := "alpha", servicePath := "/" }, true),
         ({ id := "urn:2", type := "T", service := "alpha", servicePath := "/" }, false)] := by
  have h := discoverEntities_spec ["alpha", "beta"] ["/"] discoveryExampleBroker ["urn:1"]
  refine ⟨?_, ?_⟩
  · rw [h.1]; decide
  · rw [h.2.2.1]; decide

theorem storeHas_append (l1 l2 : List LocalEntity) (id : String) :
    storeHas (l1 ++ l2) id = (storeHas l1 id || storeHas l2 id) := by
  simp [storeHas, List.any_append]

theorem importStep_cases (sid now : String) (dbFail : ImportCandidate → Option String)
    (st : ImportState) (e : ImportCandidate) :
    (storeHas st.store e.entityId = true
      ∧ (importStep sid now dbFail st e).store = st.store
      ∧ (importStep sid now dbFail st e).success = st.success
      ∧ (importStep sid now dbFail st e).failed
          = st.failed ++ [(e.entityId, "Entity already exists")])
    ∨ (storeHas st.store e.entityId = false
      ∧ (∃ msg, dbFail e = some msg
        ∧ (importStep sid now dbFail st e).store = st.store
        ∧ (importStep sid now dbFail st e).success = st.success
        ∧ (importStep sid now dbFail st e).failed = st.failed ++ [(e.entityId, msg)]))
    ∨ (storeHas st.store e.entityId = false ∧ dbFail e = none
      ∧ (importStep sid now dbFail st e).store
          = st.store ++ [importedRecord sid now st e]
      ∧ (importStep sid now dbFail st e).success = st.success ++ [e.entityId]
      ∧ (importStep sid now dbFail st e).failed = st.failed) := by
  by_cases hs : storeHas st.store e.entityId = true
  · left
    refine ⟨hs, ?_, ?_, ?_⟩ <;> simp [importStep, hs]
  · have hs' : storeHas st.store e.entityId = false := by
      cases h : storeHas st.store e.entityId
      · rfl
      · exact absurd h hs
    cases hdb : dbFail e with
    | some msg =>
      right; left
      exact ⟨hs', msg, rfl, by simp [importStep, hs', hdb],
        by simp [importStep, hs', hdb], by simp [importStep, hs', hdb]⟩
    | none =>
      right; right
      exact ⟨hs', rfl, by simp [importStep, hs', hdb],
        by simp [importStep, hs', hdb], by simp [importStep, hs', hdb]⟩

theorem importRun_spec (sid now : String) (dbFail : ImportCandidate → Option String) :
    ∀ (es : List ImportCandidate) (st : ImportState),
      (∃ news : List LocalEntity,
        (es.foldl (importStep sid now dbFail) st).store = st.store ++ news
        ∧ (es.foldl (importStep sid now dbFail) st).success
            = st.success ++ news.map (fun r => r.entityId)
        ∧ ∀ r ∈ news, r.syncStatus = "synced" ∧ r.skipSyncCtx = true
            ∧ storeHas st.store r.entityId = false)
      ∧ (∃ tailf, (es.foldl (importStep sid now dbFail) st).failed
            = st.failed ++ tailf)
      ∧ (∀ e ∈ es, storeHas st.store e.entityId = true →
          (e.entityId, "Entity already exists")
            ∈ (es.foldl (importStep sid now dbFail) st).failed)
      ∧ (es.foldl (importStep sid now dbFail) st).success.length
          + (es.foldl (importStep sid now dbFail) st).failed.length
        = st.success.length + st.failed.length + es.length := by
  intro es
  induction es with
  | nil =>
    intro st
    refine ⟨⟨[], by simp, by simp, by simp⟩, ⟨[], by simp⟩, by simp, by simp⟩
  | cons e rest ih =>
    intro st
    simp only [List.foldl_cons]
    obtain ⟨⟨news', hstore', hsucc', hprops'⟩, ⟨tailf', hfail'⟩, hmem', hlen'⟩ :=
      ih (importStep sid now dbFail st e)
    rcases importStep_cases sid now dbFail st e with
      ⟨hs, hst, hsu, hfa⟩ | ⟨hs, msg, hdb, hst, hsu, hfa⟩ |
      ⟨hs, hdb, hst, hsu, hfa⟩
    · refine ⟨⟨news', by rw [hstore', hst], by rw [hsucc', hsu], ?_⟩,
        ⟨[(e.entityId, "Entity already exists")] ++ tailf',
          by rw [hfail', hfa, List.append_assoc]⟩, ?_, ?_⟩
      · intro r hr
        obtain ⟨h1, h2, h3⟩ := hprops' r hr
        exact ⟨h1, h2, by rw [← hst]; exact h3⟩
      · intro e' he' hstore0
        rcases List.mem_cons.mp he' with rfl | hrest
        · rw [hfail', hfa]
          exact List.mem_append_left _ (List.mem_append_right _ (by simp))
        · exact hmem' e' hrest (by rw [hst]; exact hstore0)
      · rw [hlen', hsu, hfa]
        simp [List.length_append]
        omega
    · refine ⟨⟨news', by rw [hstore', hst], by rw [hsucc', hsu], ?_⟩,
        ⟨[(e.entityId, msg)] ++ tailf',
          by rw [hfail', hfa, List.append_assoc]⟩, ?_, ?_⟩
      · intro r hr
        obtain ⟨h1, h2, h3⟩ := hprops' r hr
        exact ⟨h1, h2, by rw [← hst]; exact h3⟩
      · intro e' he' hstore0
        rcases List.mem_cons.mp he' with rfl | hrest
        · exact absurd hstore0 (by rw [hs]; simp)
        · exact hmem' e' hrest (by rw [hst]; exact hstore0)
      · rw [hlen', hsu, hfa]
        simp [List.length_append]
        omega
    · refine ⟨⟨importedRecord sid now st e :: news', ?_, ?_, ?_⟩,
        ⟨tailf', by rw [hfail', hfa]⟩, ?_, ?_⟩
      · rw [hstore', hst]
        simp
      · rw [hsucc', hsu]
        simp [importedRecord]
      · intro r hr
        rcases List.mem_cons.mp hr with rfl | hrest
        · exact ⟨rfl, rfl, hs⟩
        · obtain ⟨h1, h2, h3⟩ := hprops' r hrest
          refine ⟨h1, h2, ?_⟩
          have h4 := h3
          rw [hst, storeHas_append] at h4
          exact (Bool.or_eq_false_iff.mp h4).1
      · intro e' he' hstore0
        rcases List.mem_cons.mp he' with rfl | hrest
        · exact absurd hstore0 (by rw [hs]; simp)
        · refine hmem' e' hrest ?_
          rw [hst, storeHas_append, hstore0]
          rfl
      · rw [hlen', hsu, hfa]
        simp [List.length_append]
        omega

/-- C5: for every import batch, every candidate whose id the store already
holds lands in the failed list with the duplicate-prevention error and no new
record is created for a pre-existing id; every persisted record is a new one
marked synced under the skipSync context, with the success list naming
exactly those records in order; and every candidate lands in exactly one of
the two itemized result lists, so one failure never aborts the batch. -/
theorem importEntities_spec :
    ∀ (sid now : String) (dbFail : ImportCandidate → Option String)
      (batch : List ImportCandidate) (store0 : List LocalEntity)
      (dms0 : List String),
      (∃ news : List LocalEntity,
        (importEntities sid now dbFail batch store0 dms0).store = store0 ++ news
        ∧ (importEntities sid now dbFail batch store0 dms0).success
            = news.map (fun r => r.entityId)
        ∧ ∀ r ∈ news, r.syncStatus = "synced" ∧ r.skipSyncCtx = true
            ∧ storeHas store0 r.entityId = false)
      ∧ (∀ e ∈ batch, storeHas store0 e.entityId = true →
          (e.entityId, "Entity already exists")
            ∈ (importEntities sid now dbFail batch store0 dms0).failed)
      ∧ (importEntities sid now dbFail batch store0 dms0).success.length
          + (importEntities sid now dbFail batch store0 dms0).failed.length
        = batch.length := by
  intro sid now dbFail batch store0 dms0
  obtain ⟨⟨news, h1, h2, h3⟩, _, hmem, hlen⟩ := importRun_spec sid now dbFail batch
    { store := store0, dataModels := dms0, success := [], failed := [] }
  exact ⟨⟨news, h1, by simpa using h2, h3⟩, hmem, by simpa using hlen⟩

/-- C5 witness: a batch of one duplicate and one novel candidate yields
success naming only the novel id and failed naming only the duplicate with
the duplicate-prevention error. -/
theorem importEntities_witness :
    ("urn:dup", "Entity already exists")
        ∈ (importEntities "src1" "T0" (fun _ => none)
            [dupCandidate, novelCandidate] exampleStore []).failed
    ∧ (importEntities "src1" "T0" (fun _ => none)
        [dupCandidate, novelCandidate] exampleStore []).success = ["urn:novel"]
    ∧ (importEntities "src1" "T0" (fun _ => none)
        [dupCandidate, novelCandidate] exampleStore []).failed
      = [("urn:dup", "Entity already exists")] := by
  have h := importEntities_spec "src1" "T0" (fun _ => none)
    [dupCandidate, novelCandidate] exampleStore []
  exact ⟨h.2.1 dupCandidate (List.mem_cons_self _ _) (by decide), by decide, by decide⟩

end LegoDashboard
